import Mathlib

/-!
Shallow embedding of the item-service usecase layer
(`src/internal/usecase/service.go`) of the repository.

The service orchestrates validation and persistence calls for item CRUD
and a category summary.  The persistence repository is an external
collaborator consumed through six named operations; it is modelled as a
record of state-transforming functions over an abstract state type `σ`.
Each service operation additionally returns the list of repository calls
it performed, so that claims of the form "the repository is not invoked"
are statable.

The entity package (`entity.Item`, `entity.NewItem`,
`entity.GetValidCategories`) and the domain-errors package
(`ErrInvalidInput`, `ErrItemNotFound`, `IsNotFoundError`) are collaborators
whose sources are not part of this repository snapshot; they are modelled
from the specification where needed, as flagged on each definition.
-/

/-- Modelled from the spec: `entity.Item` is not under src/.  Per the spec's
data model the item has an integer ID, Name, Category, Brand, an integer
PurchasePrice and a string-encoded PurchaseDate; store-maintained
timestamps are owned by the persistence layer and play no role in the
service logic, so they are omitted. -/
structure Item where
  id : Int
  name : String
  category : String
  brand : String
  purchasePrice : Int
  purchaseDate : String
deriving DecidableEq

/-- Modelled from the spec: the domain-errors package is not under src/.
The repository's error is "distinguishable as not-found via a provided
predicate"; any other repository failure is opaque, carried here as a
message. -/
inductive RepoError where
  | notFound
  | other (msg : String)
deriving DecidableEq

/-- Modelled from the spec: the predicate `domainErrors.IsNotFoundError`
used by the service to distinguish a repository not-found signal. -/
def IsNotFoundError : RepoError → Bool
  | .notFound => true
  | .other _ => false

/-- Modelled from the spec: the domain error kinds returned by the service.
`invalidInput detail` is `domainErrors.ErrInvalidInput`, possibly wrapped
with a detail message via `fmt.Errorf("%w: ...")` (the bare sentinel has
detail `""`); `itemNotFound` is `domainErrors.ErrItemNotFound`; `wrapped
msg inner` is a repository failure wrapped with an operation-specific
context message. -/
inductive DomainError where
  | invalidInput (detail : String)
  | itemNotFound
  | wrapped (msg : String) (inner : RepoError)
deriving DecidableEq

/-- One call made by the service to the repository collaborator, with its
arguments. -/
inductive RepoCall where
  | findAll
  | findByID (id : Int)
  | create (item : Item)
  | update (item : Item)
  | delete (id : Int)
  | getSummaryByCategory
deriving DecidableEq

/-- The repository collaborator contract (`ItemRepository`), modelled as a
record of state-transforming operations over an abstract state `σ`.
Category counts (`map[string]int` in Go) are association lists with
distinct keys. -/
structure ItemRepository (σ : Type) where
  findAll : σ → Except RepoError (List Item) × σ
  findByID : σ → Int → Except RepoError Item × σ
  create : σ → Item → Except RepoError Item × σ
  update : σ → Item → Except RepoError Item × σ
  delete : σ → Int → Option RepoError × σ
  getSummaryByCategory : σ → Except RepoError (List (String × Int)) × σ

/-- `UpdateItemInput` from service.go: each field optional
(present-or-absent distinguished via pointers in Go, `Option` here). -/
structure UpdateItemInput where
  name : Option String
  brand : Option String
  purchasePrice : Option Int
deriving DecidableEq

/-- `CategorySummary` from service.go: the per-category counts (a Go map,
modelled as the association list produced by iterating the valid
categories) plus the total. -/
structure CategorySummary where
  categories : List (String × Int)
  total : Int
deriving DecidableEq

/-- `GetAllItems` from service.go: delegates to `FindAll`, wrapping any
repository failure. -/
def GetAllItems {σ : Type} (repo : ItemRepository σ) (s : σ) :
    Except DomainError (List Item) × σ × List RepoCall :=
  match repo.findAll s with
  | (.error e, s') => (.error (.wrapped "failed to retrieve items" e), s', [.findAll])
  | (.ok items, s') => (.ok items, s', [.findAll])

/-- `GetItemByID` from service.go: rejects `id ≤ 0` with the bare
`ErrInvalidInput`, translates a not-found signal from `FindByID` to
`ErrItemNotFound`, and wraps any other `FindByID` failure. -/
def GetItemByID {σ : Type} (repo : ItemRepository σ) (s : σ) (id : Int) :
    Except DomainError Item × σ × List RepoCall :=
  if id ≤ 0 then
    (.error (.invalidInput ""), s, [])
  else
    match repo.findByID s id with
    | (.error e, s') =>
      if IsNotFoundError e then
        (.error .itemNotFound, s', [.findByID id])
      else
        (.error (.wrapped "failed to retrieve item" e), s', [.findByID id])
    | (.ok item, s') => (.ok item, s', [.findByID id])

/-- `CreateItem` from service.go.  The entity constructor `entity.NewItem`
is a collaborator whose source is not under src/; its outcome on the given
input is therefore passed in as `newItemResult` (`.error msg` when the
constructor rejects the input with reason `msg`, `.ok item` when it
succeeds).  On rejection the service returns `ErrInvalidInput` wrapped
with the constructor's reason and does not touch the repository; on
success it delegates to `Create`, wrapping any repository failure. -/
def CreateItem {σ : Type} (repo : ItemRepository σ) (s : σ)
    (newItemResult : Except String Item) :
    Except DomainError Item × σ × List RepoCall :=
  match newItemResult with
  | .error msg => (.error (.invalidInput msg), s, [])
  | .ok item =>
    match repo.create s item with
    | (.error e, s') => (.error (.wrapped "failed to create item" e), s', [.create item])
    | (.ok createdItem, s') => (.ok createdItem, s', [.create item])

/-- The `input.Name` branch of `UpdateItem` (service.go lines 117-122):
a present name must have Go `len` (UTF-8 byte length) between 1 and 100. -/
def applyName (item : Item) : Option String → Except String Item
  | none => .ok item
  | some n =>
    if n.utf8ByteSize = 0 ∨ n.utf8ByteSize > 100 then
      .error "name must be between 1 and 100 characters"
    else
      .ok { item with name := n }

/-- The `input.Brand` branch of `UpdateItem` (service.go lines 124-129). -/
def applyBrand (item : Item) : Option String → Except String Item
  | none => .ok item
  | some b =>
    if b.utf8ByteSize = 0 ∨ b.utf8ByteSize > 100 then
      .error "brand must be between 1 and 100 characters"
    else
      .ok { item with brand := b }

/-- The `input.PurchasePrice` branch of `UpdateItem`
(service.go lines 131-136): a present price must be ≥ 0. -/
def applyPrice (item : Item) : Option Int → Except String Item
  | none => .ok item
  | some p =>
    if p < 0 then
      .error "purchase_price must be 0 or greater"
    else
      .ok { item with purchasePrice := p }

/-- The validate-and-apply phase of `UpdateItem` (service.go lines
117-136): each present field is validated in order (name, brand, price)
and, if valid, written onto the in-memory copy of the existing item; the
first invalid field aborts with its message (wrapped into
`ErrInvalidInput` by `UpdateItem`). -/
def applyUpdate (existingItem : Item) (input : UpdateItemInput) : Except String Item :=
  match applyName existingItem input.name with
  | .error msg => .error msg
  | .ok i1 =>
    match applyBrand i1 input.brand with
    | .error msg => .error msg
    | .ok i2 => applyPrice i2 input.purchasePrice

/-- `UpdateItem` from service.go: rejects `id ≤ 0`; fetches the existing
item (translating a not-found signal, wrapping other `FindByID`
failures); validates and applies the present fields; then calls the
repository's `Update`, wrapping its failure. -/
def UpdateItem {σ : Type} (repo : ItemRepository σ) (s : σ) (id : Int)
    (input : UpdateItemInput) :
    Except DomainError Item × σ × List RepoCall :=
  if id ≤ 0 then
    (.error (.invalidInput ""), s, [])
  else
    match repo.findByID s id with
    | (.error e, s') =>
      if IsNotFoundError e then
        (.error .itemNotFound, s', [.findByID id])
      else
        (.error (.wrapped "failed to retrieve item for update" e), s', [.findByID id])
    | (.ok existingItem, s') =>
      match applyUpdate existingItem input with
      | .error msg => (.error (.invalidInput msg), s', [.findByID id])
      | .ok newItem =>
        match repo.update s' newItem with
        | (.error e, s'') =>
          (.error (.wrapped "failed to update item" e), s'', [.findByID id, .update newItem])
        | (.ok updatedItem, s'') =>
          (.ok updatedItem, s'', [.findByID id, .update newItem])

/-- `DeleteItem` from service.go: rejects `id ≤ 0`; checks existence via
`FindByID` (translating a not-found signal, wrapping other failures);
then calls the repository's `Delete`, wrapping its failure — note the
`Delete`-phase failure is wrapped even when it is a not-found signal. -/
def DeleteItem {σ : Type} (repo : ItemRepository σ) (s : σ) (id : Int) :
    Option DomainError × σ × List RepoCall :=
  if id ≤ 0 then
    (some (.invalidInput ""), s, [])
  else
    match repo.findByID s id with
    | (.error e, s') =>
      if IsNotFoundError e then
        (some .itemNotFound, s', [.findByID id])
      else
        (some (.wrapped "failed to check item existence" e), s', [.findByID id])
    | (.ok _, s') =>
      match repo.delete s' id with
      | (some e, s'') => (some (.wrapped "failed to delete item" e), s'', [.findByID id, .delete id])
      | (none, s'') => (none, s'', [.findByID id, .delete id])

/-- `GetCategorySummary` from service.go: fetches the raw category→count
mapping, sums ALL returned counts into `total`, and builds the output
mapping by iterating the fixed set of valid categories, taking the
repository's count when present and 0 otherwise.
`validCategories` stands for the result of `entity.GetValidCategories()`
(modelled from the spec as a parameter: the entity package with its fixed
enumerated set is not under src/). -/
def GetCategorySummary {σ : Type} (repo : ItemRepository σ) (s : σ)
    (validCategories : List String) :
    Except DomainError CategorySummary × σ × List RepoCall :=
  match repo.getSummaryByCategory s with
  | (.error e, s') =>
    (.error (.wrapped "failed to get category summary" e), s', [.getSummaryByCategory])
  | (.ok categoryCounts, s') =>
    let total := (categoryCounts.map Prod.snd).sum
    let summary := validCategories.map fun category =>
      (category, (categoryCounts.lookup category).getD 0)
    (.ok { categories := summary, total := total }, s', [.getSummaryByCategory])

/-! ### Concrete repositories used as witnesses -/

/-- A sample inventory item used in concrete instantiations. -/
def sampleItem : Item :=
  { id := 1, name := "Rolex Submariner", category := "watch", brand := "Rolex",
    purchasePrice := 1000000, purchaseDate := "2023-01-15" }

/-- Removal of a key from an association list (the effect of a map-backed
repository's `Delete`). -/
def eraseKey {β : Type} (id : Int) (l : List (Int × β)) : List (Int × β) :=
  l.filter fun p => p.1 ≠ id

/-- A repository that behaves as a map from ids to items: its state is an
association list keyed by id.  `findByID` looks the id up, signalling
not-found when absent; `delete` removes the id's entry; `update` replaces
the stored item when present. -/
def mapRepo : ItemRepository (List (Int × Item)) where
  findAll s := (.ok (s.map Prod.snd), s)
  findByID s id :=
    match s.lookup id with
    | some item => (.ok item, s)
    | none => (.error .notFound, s)
  create s item := (.ok item, (item.id, item) :: s)
  update s item :=
    match s.lookup item.id with
    | some _ => (.ok item, s.map fun p => if p.1 = item.id then (p.1, item) else p)
    | none => (.error .notFound, s)
  delete s id := (none, eraseKey id s)
  getSummaryByCategory s := (.ok [], s)

/-- A stateless repository whose `getSummaryByCategory` reports the fixed
raw counts `counts`; used to instantiate the category-summary claims. -/
def summaryRepo (counts : List (String × Int)) : ItemRepository Unit where
  findAll _ := (.error (.other "unsupported"), ())
  findByID _ _ := (.error (.other "unsupported"), ())
  create _ _ := (.error (.other "unsupported"), ())
  update _ _ := (.error (.other "unsupported"), ())
  delete _ _ := (some (.other "unsupported"), ())
  getSummaryByCategory _ := (.ok counts, ())

/-- A repository exhibiting the check-then-mutate race of spec §5: the
existence check still finds the item, but the mutation-phase `Update` and
`Delete` calls signal not-found (another caller deleted the item in
between). -/
def ghostRepo : ItemRepository Unit where
  findAll _ := (.ok [sampleItem], ())
  findByID _ _ := (.ok sampleItem, ())
  create _ item := (.ok item, ())
  update _ _ := (.error .notFound, ())
  delete _ _ := (some .notFound, ())
  getSummaryByCategory _ := (.ok [], ())

/-- The all-absent update input (`{}` in the spec's test). -/
def emptyUpdateInput : UpdateItemInput := { name := none, brand := none, purchasePrice := none }

/-- An update input with some present field violating the validation rule
UpdateItem enforces for it: a present name or brand whose Go `len`
(UTF-8 byte length) is 0 or exceeds 100, or a present negative purchase
price. -/
def hasInvalidPresentField (input : UpdateItemInput) : Prop :=
  (∃ n, input.name = some n ∧ (n.utf8ByteSize = 0 ∨ n.utf8ByteSize > 100)) ∨
  (∃ b, input.brand = some b ∧ (b.utf8ByteSize = 0 ∨ b.utf8ByteSize > 100)) ∨
  (∃ p, input.purchasePrice = some p ∧ p < 0)

/-- A 34-character string of three-byte characters: 34 characters but 102
UTF-8 bytes. -/
def longKanaName : String := "ああああああああああああああああああああああああああああああああああ"

/-! ### Claims -/

/-- C4: for every id ≤ 0, each of GetItemByID, UpdateItem and DeleteItem
returns the InvalidInput error kind (the bare sentinel), leaves the
repository state untouched, and performs no repository call at all. -/
theorem invalid_id_rejected_without_repo_call {σ : Type} (repo : ItemRepository σ)
    (s : σ) (id : Int) (input : UpdateItemInput) (h : id ≤ 0) :
    GetItemByID repo s id = (.error (.invalidInput ""), s, []) ∧
    UpdateItem repo s id input = (.error (.invalidInput ""), s, []) ∧
    DeleteItem repo s id = (some (.invalidInput ""), s, []) := by
  refine ⟨?_, ?_, ?_⟩ <;> simp [GetItemByID, UpdateItem, DeleteItem, h]

/-- Witness for C4: concrete instance at id = 0 on the map-backed
repository with empty state. -/
theorem invalid_id_rejected_without_repo_call_witness :
    (0 : Int) ≤ 0 ∧
    GetItemByID mapRepo [] 0 = (.error (.invalidInput ""), [], []) ∧
    UpdateItem mapRepo [] 0 emptyUpdateInput = (.error (.invalidInput ""), [], []) ∧
    DeleteItem mapRepo [] 0 = (some (.invalidInput ""), [], []) :=
  ⟨by decide, invalid_id_rejected_without_repo_call mapRepo [] 0 emptyUpdateInput (by decide)⟩

/-- C5: for every id > 0, each of GetItemByID, UpdateItem and DeleteItem
returns the ItemNotFound error kind exactly when the repository's
FindByID lookup signals not-found; any other FindByID failure is returned
wrapped with the operation's added context, not as ItemNotFound. -/
theorem itemNotFound_iff_findByID_notFound {σ : Type} (repo : ItemRepository σ)
    (s : σ) (id : Int) (input : UpdateItemInput) (h : 0 < id) :
    ((GetItemByID repo s id).1 = .error .itemNotFound ↔
      (repo.findByID s id).1 = .error .notFound) ∧
    ((UpdateItem repo s id input).1 = .error .itemNotFound ↔
      (repo.findByID s id).1 = .error .notFound) ∧
    ((DeleteItem repo s id).1 = some .itemNotFound ↔
      (repo.findByID s id).1 = .error .notFound) ∧
    (∀ m, (repo.findByID s id).1 = .error (.other m) →
      (GetItemByID repo s id).1 = .error (.wrapped "failed to retrieve item" (.other m)) ∧
      (UpdateItem repo s id input).1 =
        .error (.wrapped "failed to retrieve item for update" (.other m)) ∧
      (DeleteItem repo s id).1 = some (.wrapped "failed to check item existence" (.other m))) := by
  have hne : ¬ id ≤ 0 := by omega
  rcases hf : repo.findByID s id with ⟨r, s'⟩
  rcases r with e | item
  · rcases e with _ | m <;>
      simp [GetItemByID, UpdateItem, DeleteItem, hne, hf, IsNotFoundError]
  · refine ⟨by simp [GetItemByID, hne, hf], ?_, ?_, by simp [hf]⟩
    · rcases hau : applyUpdate item input with msg | n
      · simp [UpdateItem, hne, hf, hau]
      · rcases hu : repo.update s' n with ⟨ru, s''⟩
        rcases ru with e | u <;> simp [UpdateItem, hne, hf, hau, hu]
    · rcases hd : repo.delete s' id with ⟨rd, s''⟩
      rcases rd with _ | e <;> simp [DeleteItem, hne, hf, hd]

/-- Witness for C5: concrete instance at id = 1 on the map-backed
repository with empty state, where FindByID signals not-found. -/
theorem itemNotFound_iff_findByID_notFound_witness :
    (0 : Int) < 1 ∧
    ((GetItemByID mapRepo [] 1).1 = .error .itemNotFound ↔
      (mapRepo.findByID [] 1).1 = .error .notFound) :=
  ⟨by decide,
   (itemNotFound_iff_findByID_notFound mapRepo [] 1 emptyUpdateInput (by decide)).1⟩

/-- Looking up a key just erased from an association list yields
nothing. -/
lemma lookup_eraseKey_self {β : Type} (l : List (Int × β)) (id : Int) :
    (eraseKey id l).lookup id = none := by
  rw [List.lookup_eq_none_iff]
  intro p hp
  have h := List.of_mem_filter hp
  simp only [decide_eq_true_eq] at h
  simp only [bne_iff_ne, ne_eq]
  omega

/-- C8: on the map-backed repository, deleting an existing id (id > 0)
twice in sequence succeeds the first time and returns the ItemNotFound
error kind the second time. -/
theorem deleteItem_twice_success_then_notFound (s : List (Int × Item)) (id : Int)
    (item : Item) (hid : 0 < id) (hfind : s.lookup id = some item) :
    (DeleteItem mapRepo s id).1 = none ∧
    (DeleteItem mapRepo (DeleteItem mapRepo s id).2.1 id).1 = some .itemNotFound := by
  have hne : ¬ id ≤ 0 := by omega
  have h1 : DeleteItem mapRepo s id =
      (none, eraseKey id s, [.findByID id, .delete id]) := by
    simp [DeleteItem, hne, mapRepo, hfind]
  rw [h1]
  exact ⟨rfl, by simp [DeleteItem, hne, mapRepo, lookup_eraseKey_self, IsNotFoundError]⟩

/-- Witness for C8: deleting id 1 twice from a singleton map-backed
repository. -/
theorem deleteItem_twice_success_then_notFound_witness :
    (0 : Int) < 1 ∧
    ([(1, sampleItem)] : List (Int × Item)).lookup 1 = some sampleItem ∧
    (DeleteItem mapRepo [(1, sampleItem)] 1).1 = none ∧
    (DeleteItem mapRepo (DeleteItem mapRepo [(1, sampleItem)] 1).2.1 1).1 =
      some .itemNotFound :=
  ⟨by decide, by decide,
   deleteItem_twice_success_then_notFound [(1, sampleItem)] 1 sampleItem
     (by decide) (by decide)⟩

/-- The name branch only ever rewrites the name field. -/
lemma applyName_frame (it : Item) (o : Option String) (n : Item)
    (h : applyName it o = .ok n) :
    n.id = it.id ∧ n.category = it.category ∧ n.purchaseDate = it.purchaseDate := by
  cases o with
  | none =>
    simp only [applyName] at h
    injection h with h
    subst h
    exact ⟨rfl, rfl, rfl⟩
  | some str =>
    simp only [applyName] at h
    split at h
    · exact Except.noConfusion h
    · injection h with h
      subst h
      exact ⟨rfl, rfl, rfl⟩

/-- The brand branch only ever rewrites the brand field. -/
lemma applyBrand_frame (it : Item) (o : Option String) (n : Item)
    (h : applyBrand it o = .ok n) :
    n.id = it.id ∧ n.category = it.category ∧ n.purchaseDate = it.purchaseDate := by
  cases o with
  | none =>
    simp only [applyBrand] at h
    injection h with h
    subst h
    exact ⟨rfl, rfl, rfl⟩
  | some str =>
    simp only [applyBrand] at h
    split at h
    · exact Except.noConfusion h
    · injection h with h
      subst h
      exact ⟨rfl, rfl, rfl⟩

/-- The price branch only ever rewrites the purchase-price field. -/
lemma applyPrice_frame (it : Item) (o : Option Int) (n : Item)
    (h : applyPrice it o = .ok n) :
    n.id = it.id ∧ n.category = it.category ∧ n.purchaseDate = it.purchaseDate := by
  cases o with
  | none =>
    simp only [applyPrice] at h
    injection h with h
    subst h
    exact ⟨rfl, rfl, rfl⟩
  | some p =>
    simp only [applyPrice] at h
    split at h
    · exact Except.noConfusion h
    · injection h with h
      subst h
      exact ⟨rfl, rfl, rfl⟩

/-- The whole validate-and-apply phase preserves the id, category and
purchase date of the existing item. -/
lemma applyUpdate_frame (ex : Item) (input : UpdateItemInput) (n : Item)
    (h : applyUpdate ex input = .ok n) :
    n.id = ex.id ∧ n.category = ex.category ∧ n.purchaseDate = ex.purchaseDate := by
  simp only [applyUpdate] at h
  rcases h1 : applyName ex input.name with msg | i1 <;> simp only [h1] at h
  · exact Except.noConfusion h
  · rcases h2 : applyBrand i1 input.brand with msg | i2 <;> simp only [h2] at h
    · exact Except.noConfusion h
    · obtain ⟨a1, b1, c1⟩ := applyName_frame ex input.name i1 h1
      obtain ⟨a2, b2, c2⟩ := applyBrand_frame i1 input.brand i2 h2
      obtain ⟨a3, b3, c3⟩ := applyPrice_frame i2 input.purchasePrice n h
      exact ⟨by rw [a3, a2, a1], by rw [b3, b2, b1], by rw [c3, c2, c1]⟩

/-- If some present field violates its rule, the validate-and-apply phase
rejects the input (with an offending field's message). -/
lemma applyUpdate_error_of_invalid (ex : Item) (input : UpdateItemInput)
    (h : hasInvalidPresentField input) :
    ∃ msg, applyUpdate ex input = .error msg := by
  rcases h1 : applyName ex input.name with msg | i1
  · exact ⟨msg, by simp only [applyUpdate, h1]⟩
  · rcases h2 : applyBrand i1 input.brand with msg | i2
    · exact ⟨msg, by simp only [applyUpdate, h1, h2]⟩
    · rcases h with hn | hb | hp
      · obtain ⟨n, hn1, hn2⟩ := hn
        rw [hn1] at h1
        simp only [applyName] at h1
        rw [if_pos hn2] at h1
        exact Except.noConfusion h1
      · obtain ⟨b, hb1, hb2⟩ := hb
        rw [hb1] at h2
        simp only [applyBrand] at h2
        rw [if_pos hb2] at h2
        exact Except.noConfusion h2
      · obtain ⟨p, hp1, hp2⟩ := hp
        refine ⟨"purchase_price must be 0 or greater", ?_⟩
        simp only [applyUpdate, h1, h2, hp1, applyPrice]
        rw [if_pos hp2]

/-- C6: for an existing item (id > 0), an update input with a present
field violating its validation rule makes UpdateItem return the
InvalidInput error kind without ever calling the repository's Update;
the all-absent input calls Update with the existing item itself,
unchanged, and passes the repository's result through. -/
theorem updateItem_invalid_field_vs_empty_input {σ : Type} (repo : ItemRepository σ)
    (s s' : σ) (id : Int) (input : UpdateItemInput) (ex : Item)
    (hid : 0 < id) (hfind : repo.findByID s id = (.ok ex, s')) :
    (hasInvalidPresentField input →
      (∃ msg, (UpdateItem repo s id input).1 = .error (.invalidInput msg)) ∧
      ∀ it, RepoCall.update it ∉ (UpdateItem repo s id input).2.2) ∧
    ((UpdateItem repo s id emptyUpdateInput).2.2 = [.findByID id, .update ex] ∧
     ∀ u s'', repo.update s' ex = (.ok u, s'') →
       UpdateItem repo s id emptyUpdateInput = (.ok u, s'', [.findByID id, .update ex])) := by
  have hle : ¬ id ≤ 0 := by omega
  constructor
  · intro hinv
    obtain ⟨msg, hmsg⟩ := applyUpdate_error_of_invalid ex input hinv
    refine ⟨⟨msg, by simp [UpdateItem, hle, hfind, hmsg]⟩, ?_⟩
    intro it
    simp [UpdateItem, hle, hfind, hmsg]
  · have hok : applyUpdate ex emptyUpdateInput = .ok ex := rfl
    constructor
    · rcases hu : repo.update s' ex with ⟨ru, s''⟩
      rcases ru with e | u <;> simp [UpdateItem, hle, hfind, hok, hu]
    · intro u s'' hu
      simp [UpdateItem, hle, hfind, hok, hu]

/-- Witness for C6: on a singleton map-backed repository,
{PurchasePrice: -1} is rejected as InvalidInput and the all-absent input
calls Update with the fetched item unchanged. -/
theorem updateItem_invalid_field_vs_empty_input_witness :
    (0 : Int) < 1 ∧
    (∃ msg, (UpdateItem mapRepo [(1, sampleItem)] 1
        { name := none, brand := none, purchasePrice := some (-1) }).1 =
      Except.error (.invalidInput msg)) ∧
    (UpdateItem mapRepo [(1, sampleItem)] 1 emptyUpdateInput).2.2 =
      [.findByID 1, .update sampleItem] :=
  ⟨by decide,
   ((updateItem_invalid_field_vs_empty_input mapRepo [(1, sampleItem)] [(1, sampleItem)] 1
       { name := none, brand := none, purchasePrice := some (-1) } sampleItem
       (by decide) rfl).1
     (Or.inr (Or.inr ⟨-1, rfl, by decide⟩))).1,
   ((updateItem_invalid_field_vs_empty_input mapRepo [(1, sampleItem)] [(1, sampleItem)] 1
       { name := none, brand := none, purchasePrice := some (-1) } sampleItem
       (by decide) rfl).2).1⟩

/-- C9: whatever item UpdateItem passes to the repository's Update call
has the same id, category and purchase date as the item fetched by
FindByID — the update input has no such fields, so they can never be
modified. -/
theorem updateItem_preserves_id_category_purchaseDate {σ : Type}
    (repo : ItemRepository σ) (s s' : σ) (id : Int) (input : UpdateItemInput)
    (ex it : Item) (hfind : repo.findByID s id = (.ok ex, s'))
    (hmem : RepoCall.update it ∈ (UpdateItem repo s id input).2.2) :
    it.id = ex.id ∧ it.category = ex.category ∧ it.purchaseDate = ex.purchaseDate := by
  by_cases hle : id ≤ 0
  · simp [UpdateItem, hle] at hmem
  · rcases hau : applyUpdate ex input with msg | n
    · simp [UpdateItem, hle, hfind, hau] at hmem
    · rcases hu : repo.update s' n with ⟨ru, s''⟩
      rcases ru with e | u <;> simp [UpdateItem, hle, hfind, hau, hu] at hmem <;>
        exact hmem ▸ applyUpdate_frame ex input n hau

/-- Witness for C9: the all-absent input on a singleton map-backed
repository passes the fetched item itself to Update. -/
theorem updateItem_preserves_id_category_purchaseDate_witness :
    sampleItem.id = sampleItem.id ∧ sampleItem.category = sampleItem.category ∧
    sampleItem.purchaseDate = sampleItem.purchaseDate :=
  updateItem_preserves_id_category_purchaseDate mapRepo [(1, sampleItem)]
    [(1, sampleItem)] 1 emptyUpdateInput sampleItem sampleItem rfl (by decide)

/-- C10: for an existing item (id > 0), a present name or brand in the
update input is accepted — i.e. written onto the item that UpdateItem
passes to the repository's Update — exactly when its UTF-8 byte length
(Go `len`) is between 1 and 100; otherwise UpdateItem rejects it with
the InvalidInput error kind, so a string of more than 100 bytes is
rejected even when it has at most 100 characters. -/
theorem updateItem_length_check_counts_bytes {σ : Type} (repo : ItemRepository σ)
    (s s' : σ) (id : Int) (ex : Item) (str : String)
    (hid : 0 < id) (hfind : repo.findByID s id = (.ok ex, s')) :
    ((UpdateItem repo s id { name := some str, brand := none, purchasePrice := none }).1 =
        .error (.invalidInput "name must be between 1 and 100 characters") ↔
      (str.utf8ByteSize = 0 ∨ 100 < str.utf8ByteSize)) ∧
    ((UpdateItem repo s id { name := none, brand := some str, purchasePrice := none }).1 =
        .error (.invalidInput "brand must be between 1 and 100 characters") ↔
      (str.utf8ByteSize = 0 ∨ 100 < str.utf8ByteSize)) ∧
    (RepoCall.update { ex with name := str } ∈
        (UpdateItem repo s id { name := some str, brand := none, purchasePrice := none }).2.2 ↔
      (1 ≤ str.utf8ByteSize ∧ str.utf8ByteSize ≤ 100)) ∧
    (RepoCall.update { ex with brand := str } ∈
        (UpdateItem repo s id { name := none, brand := some str, purchasePrice := none }).2.2 ↔
      (1 ≤ str.utf8ByteSize ∧ str.utf8ByteSize ≤ 100)) := by
  have hle : ¬ id ≤ 0 := by omega
  by_cases hcond : str.utf8ByteSize = 0 ∨ 100 < str.utf8ByteSize
  · have hname : applyUpdate ex { name := some str, brand := none, purchasePrice := none } =
        .error "name must be between 1 and 100 characters" := by
      simp only [applyUpdate, applyName]
      rw [if_pos hcond]
    have hbrand : applyUpdate ex { name := none, brand := some str, purchasePrice := none } =
        .error "brand must be between 1 and 100 characters" := by
      simp only [applyUpdate, applyName, applyBrand]
      rw [if_pos hcond]
    refine ⟨?_, ?_, ?_, ?_⟩ <;>
      simp [UpdateItem, hle, hfind, hname, hbrand, hcond] <;> omega
  · have hvalid : ¬ (str.utf8ByteSize = 0 ∨ str.utf8ByteSize > 100) := hcond
    have hname : applyUpdate ex { name := some str, brand := none, purchasePrice := none } =
        .ok { ex with name := str } := by
      simp only [applyUpdate, applyName, applyBrand, applyPrice]
      rw [if_neg hvalid]
    have hbrand : applyUpdate ex { name := none, brand := some str, purchasePrice := none } =
        .ok { ex with brand := str } := by
      simp only [applyUpdate, applyName, applyBrand, applyPrice]
      rw [if_neg hvalid]
    refine ⟨?_, ?_, ?_, ?_⟩
    · rcases hu : repo.update s' { ex with name := str } with ⟨ru, s''⟩
      rcases ru with e | u <;> simp [UpdateItem, hle, hfind, hname, hu, hcond]
    · rcases hu : repo.update s' { ex with brand := str } with ⟨ru, s''⟩
      rcases ru with e | u <;> simp [UpdateItem, hle, hfind, hbrand, hu, hcond]
    · rcases hu : repo.update s' { ex with name := str } with ⟨ru, s''⟩
      rcases ru with e | u <;> simp [UpdateItem, hle, hfind, hname, hu] <;> omega
    · rcases hu : repo.update s' { ex with brand := str } with ⟨ru, s''⟩
      rcases ru with e | u <;> simp [UpdateItem, hle, hfind, hbrand, hu] <;> omega

/-- Witness for C10: a 34-character, 102-byte name is rejected with
InvalidInput even though its character count is at most 100. -/
theorem updateItem_length_check_counts_bytes_witness :
    longKanaName.length = 34 ∧ longKanaName.utf8ByteSize = 102 ∧
    (UpdateItem mapRepo [(1, sampleItem)] 1
        { name := some longKanaName, brand := none, purchasePrice := none }).1 =
      .error (.invalidInput "name must be between 1 and 100 characters") :=
  ⟨by decide, by decide,
   (updateItem_length_check_counts_bytes mapRepo [(1, sampleItem)] [(1, sampleItem)] 1
       sampleItem longKanaName (by decide) rfl).1.mpr (by decide)⟩

/-- C7: when the entity constructor rejects the input, CreateItem returns
the InvalidInput error kind carrying the constructor's reason and never
invokes the repository's Create; when the constructor succeeds,
CreateItem calls Create with the constructed item, returning the
repository's item on success and a wrapped error on repository
failure. -/
theorem createItem_constructor_gate {σ : Type} (repo : ItemRepository σ) (s : σ)
    (newItemResult : Except String Item) :
    (∀ msg, newItemResult = .error msg →
      CreateItem repo s newItemResult = (.error (.invalidInput msg), s, [])) ∧
    (∀ item, newItemResult = .ok item →
      (CreateItem repo s newItemResult).2.2 = [.create item] ∧
      (∀ created s', repo.create s item = (.ok created, s') →
        CreateItem repo s newItemResult = (.ok created, s', [.create item])) ∧
      (∀ e s', repo.create s item = (.error e, s') →
        CreateItem repo s newItemResult =
          (.error (.wrapped "failed to create item" e), s', [.create item]))) := by
  constructor
  · intro msg hmsg
    simp [CreateItem, hmsg]
  · intro item hitem
    refine ⟨?_, ?_, ?_⟩
    · rcases hc : repo.create s item with ⟨rc, s'⟩
      rcases rc with e | c <;> simp [CreateItem, hitem, hc]
    · intro created s' hc
      simp [CreateItem, hitem, hc]
    · intro e s' hc
      simp [CreateItem, hitem, hc]

/-- Witness for C7: a rejecting constructor result yields InvalidInput
with the reason and no repository call; an accepted item is passed to
Create. -/
theorem createItem_constructor_gate_witness :
    CreateItem mapRepo [] (.error "name is required") =
      (.error (.invalidInput "name is required"), [], []) ∧
    (CreateItem mapRepo [] (.ok sampleItem)).2.2 = [.create sampleItem] :=
  ⟨(createItem_constructor_gate mapRepo [] (.error "name is required")).1
      "name is required" rfl,
   ((createItem_constructor_gate mapRepo [] (.ok sampleItem)).2 sampleItem rfl).1⟩

/-- Counterexample to C3: on a repository where the existence check still
sees the item but the mutation-phase call signals not-found (the race of
spec §5), DeleteItem and UpdateItem surface the raw store not-found
signal wrapped in an operation message instead of translating it to the
ItemNotFound kind. -/
theorem mutation_phase_notFound_not_translated :
    (DeleteItem ghostRepo () 1).1 = some (.wrapped "failed to delete item" .notFound) ∧
    (DeleteItem ghostRepo () 1).1 ≠ some .itemNotFound ∧
    (UpdateItem ghostRepo () 1 emptyUpdateInput).1 =
      .error (.wrapped "failed to update item" .notFound) ∧
    (UpdateItem ghostRepo () 1 emptyUpdateInput).1 ≠ .error .itemNotFound := by
  have hu : (UpdateItem ghostRepo () 1 emptyUpdateInput).1 =
      .error (.wrapped "failed to update item" .notFound) := rfl
  exact ⟨rfl, by decide, hu, by rw [hu]; simp⟩

/-- C3 (amended): a not-found signal from the FindByID existence lookup is
translated to the ItemNotFound kind by GetItemByID, UpdateItem and
DeleteItem; a not-found signal from the mutation-phase Update or Delete
call is not translated but wrapped with the operation's context message,
carrying the raw store signal. -/
theorem findByID_notFound_translated_mutation_notFound_wrapped {σ : Type}
    (repo : ItemRepository σ) (s : σ) (id : Int) (input : UpdateItemInput)
    (h : 0 < id) :
    (∀ s', repo.findByID s id = (.error .notFound, s') →
      (GetItemByID repo s id).1 = .error .itemNotFound ∧
      (UpdateItem repo s id input).1 = .error .itemNotFound ∧
      (DeleteItem repo s id).1 = some .itemNotFound) ∧
    (∀ ex s', repo.findByID s id = (.ok ex, s') →
      (∀ s'', repo.delete s' id = (some .notFound, s'') →
        (DeleteItem repo s id).1 = some (.wrapped "failed to delete item" .notFound)) ∧
      (∀ it, applyUpdate ex input = .ok it →
        ∀ s'', repo.update s' it = (.error .notFound, s'') →
          (UpdateItem repo s id input).1 =
            .error (.wrapped "failed to update item" .notFound))) := by
  have hle : ¬ id ≤ 0 := by omega
  constructor
  · intro s' hf
    exact ⟨by simp [GetItemByID, hle, hf, IsNotFoundError],
           by simp [UpdateItem, hle, hf, IsNotFoundError],
           by simp [DeleteItem, hle, hf, IsNotFoundError]⟩
  · intro ex s' hf
    constructor
    · intro s'' hd
      simp [DeleteItem, hle, hf, hd]
    · intro it hit s'' hu
      simp [UpdateItem, hle, hf, hit, hu]

/-- Witness for C3 (amended): the FindByID-translation half at a
not-found lookup, and the mutation-phase-wrapping half on the racing
repository. -/
theorem findByID_notFound_translated_mutation_notFound_wrapped_witness :
    (DeleteItem mapRepo [] 1).1 = some .itemNotFound ∧
    (DeleteItem ghostRepo () 1).1 = some (.wrapped "failed to delete item" .notFound) :=
  ⟨((findByID_notFound_translated_mutation_notFound_wrapped mapRepo [] 1
      emptyUpdateInput (by decide)).1 [] rfl).2.2,
   (((findByID_notFound_translated_mutation_notFound_wrapped ghostRepo () 1
      emptyUpdateInput (by decide)).2 sampleItem () rfl).1 () rfl)⟩

/-- C1: for every repository result of GetSummaryByCategory, the summary's
keys are exactly the valid categories (in order), each valid category is
mapped to the repository's count when present and to 0 otherwise, and
Total is the sum of all raw repository counts. -/
theorem getCategorySummary_keys_counts_total {σ : Type} (repo : ItemRepository σ)
    (s s' : σ) (validCategories : List String) (counts : List (String × Int))
    (hrepo : repo.getSummaryByCategory s = (.ok counts, s')) :
    ∃ summary, (GetCategorySummary repo s validCategories).1 = .ok summary ∧
      summary.categories.map Prod.fst = validCategories ∧
      (∀ c ∈ validCategories, (c, (counts.lookup c).getD 0) ∈ summary.categories) ∧
      summary.total = (counts.map Prod.snd).sum := by
  refine ⟨⟨validCategories.map fun c => (c, (counts.lookup c).getD 0),
           (counts.map Prod.snd).sum⟩, ?_, ?_, ?_, rfl⟩
  · simp [GetCategorySummary, hrepo]
  · simp [Function.comp_def]
  · intro c hc
    exact List.mem_map.mpr ⟨c, hc, rfl⟩

/-- Witness for C1: the spec's example — repository counts
{electronics: 3} with valid categories {electronics, clothing} yield
Categories {electronics: 3, clothing: 0} and Total 3. -/
theorem getCategorySummary_keys_counts_total_witness :
    ∃ summary,
      (GetCategorySummary (summaryRepo [("electronics", 3)]) ()
          ["electronics", "clothing"]).1 = .ok summary ∧
      summary.categories.map Prod.fst = ["electronics", "clothing"] ∧
      (∀ c ∈ (["electronics", "clothing"] : List String),
        (c, (([("electronics", 3)] : List (String × Int)).lookup c).getD 0) ∈
          summary.categories) ∧
      summary.total = (([("electronics", 3)] : List (String × Int)).map Prod.snd).sum :=
  getCategorySummary_keys_counts_total (summaryRepo [("electronics", 3)]) () ()
    ["electronics", "clothing"] [("electronics", 3)] rfl

/-- Summing a function over a duplicate-free list that is the function
`g` except at one member `k`, where `g` vanishes, adds the value at `k`
to the sum of `g`. -/
lemma sum_map_ite_mem (valid : List String) (k : String) (v : Int) (g : String → Int)
    (hn : valid.Nodup) (hk : k ∈ valid) (hg : g k = 0) :
    (valid.map fun c => if c = k then v else g c).sum = v + (valid.map g).sum := by
  induction valid with
  | nil => cases hk
  | cons a t ih =>
    rw [List.nodup_cons] at hn
    rcases List.mem_cons.mp hk with rfl | hmem
    · simp only [List.map_cons, List.sum_cons]
      have hcong : t.map (fun c => if c = k then v else g c) = t.map g := by
        apply List.map_congr_left
        intro c hc
        apply if_neg
        intro e
        subst e
        exact hn.1 hc
      rw [if_true, hcong, hg]
      omega
    · have hak : a ≠ k := by
        intro e
        subst e
        exact hn.1 hmem
      simp only [List.map_cons, List.sum_cons, if_neg hak]
      rw [ih hn.2 hmem]
      omega

/-- When the raw counts have duplicate-free keys all lying in the
duplicate-free valid set, the per-valid-category lookups sum to the sum
of all raw counts. -/
lemma sum_lookup_eq_sum_counts (counts : List (String × Int)) (valid : List String)
    (hc : (counts.map Prod.fst).Nodup) (hv : valid.Nodup)
    (hsub : ∀ p ∈ counts, p.1 ∈ valid) :
    (valid.map fun c => (counts.lookup c).getD 0).sum = (counts.map Prod.snd).sum := by
  induction counts with
  | nil => simp
  | cons p rest ih =>
    obtain ⟨k, v⟩ := p
    rw [List.map_cons, List.nodup_cons] at hc
    have hk : k ∈ valid := hsub (k, v) (List.mem_cons_self _ _)
    have hrest : rest.lookup k = none := by
      rw [List.lookup_eq_none_iff]
      intro q hq
      simp only [bne_iff_ne, ne_eq]
      intro e
      exact hc.1 (e ▸ List.mem_map.mpr ⟨q, hq, rfl⟩)
    have hstep : ∀ c ∈ valid, (((k, v) :: rest).lookup c).getD 0 =
        if c = k then v else (rest.lookup c).getD 0 := by
      intro c _
      by_cases h : c = k
      · subst h
        simp
      · have hbe : (c == k) = false := beq_eq_false_iff_ne.mpr h
        simp [List.lookup_cons, hbe, h]
    calc (valid.map fun c => (((k, v) :: rest).lookup c).getD 0).sum
        = (valid.map fun c => if c = k then v else (rest.lookup c).getD 0).sum := by
          rw [List.map_congr_left hstep]
      _ = v + (valid.map fun c => (rest.lookup c).getD 0).sum :=
          sum_map_ite_mem valid k v _ hv hk (by rw [hrest]; rfl)
      _ = v + (rest.map Prod.snd).sum := by
          rw [ih hc.2 fun q hq => hsub q (List.mem_cons_of_mem _ hq)]
      _ = (((k, v) :: rest).map Prod.snd).sum := by simp

/-- C2: Total can strictly exceed the sum of the returned Categories
values when the repository reports a category outside the valid set with
a positive count (witnessed concretely); and whenever the repository's
keys are all valid (the mappings being duplicate-free), Total equals
that sum. -/
theorem total_exceeds_iff_unknown_category :
    (∃ (counts : List (String × Int)) (valid : List String)
        (c : String) (n : Int) (summary : CategorySummary),
      (c, n) ∈ counts ∧ c ∉ valid ∧ 0 < n ∧
      (GetCategorySummary (summaryRepo counts) () valid).1 = .ok summary ∧
      (summary.categories.map Prod.snd).sum < summary.total) ∧
    (∀ (σ : Type) (repo : ItemRepository σ) (s s' : σ)
        (counts : List (String × Int)) (valid : List String)
        (summary : CategorySummary),
      repo.getSummaryByCategory s = (.ok counts, s') →
      (counts.map Prod.fst).Nodup → valid.Nodup →
      (∀ p ∈ counts, p.1 ∈ valid) →
      (GetCategorySummary repo s valid).1 = .ok summary →
      summary.total = (summary.categories.map Prod.snd).sum) := by
  constructor
  · exact ⟨[("food", 2), ("electronics", 1)], ["electronics"], "food", 2,
      ⟨[("electronics", 1)], 3⟩, by decide, by decide, by decide, rfl, by decide⟩
  · intro σ repo s s' counts valid summary hrepo hc hv hsub hsum
    have heq : (GetCategorySummary repo s valid).1 =
        .ok ⟨valid.map fun c => (c, (counts.lookup c).getD 0),
             (counts.map Prod.snd).sum⟩ := by
      simp [GetCategorySummary, hrepo]
    rw [heq] at hsum
    injection hsum with hsum
    subst hsum
    simp only [List.map_map, Function.comp_def]
    exact (sum_lookup_eq_sum_counts counts valid hc hv hsub).symm

/-- Witness for C2's universal half: counts {a: 2, b: 5} with valid set
{a, b} give Total 7 equal to the sum of the returned Categories
values. -/
theorem total_exceeds_iff_unknown_category_witness :
    (GetCategorySummary (summaryRepo [("a", 2), ("b", 5)]) () ["a", "b"]).1 =
      .ok ⟨[("a", 2), ("b", 5)], 7⟩ ∧
    (7 : Int) = (([("a", 2), ("b", 5)] : List (String × Int)).map Prod.snd).sum :=
  ⟨rfl,
   (total_exceeds_iff_unknown_category.2 Unit (summaryRepo [("a", 2), ("b", 5)]) () ()
      [("a", 2), ("b", 5)] ["a", "b"] ⟨[("a", 2), ("b", 5)], 7⟩ rfl
      (by decide) (by decide) (by decide) rfl)⟩

